import Mathlib

/-!
Verification of the probabilistic record-linkage pipeline in
`prob_data_link.py` against its natural-language specification.

The script loads two tabular datasets, coerces the `birthdate` column to
dates (`pd.to_datetime(..., errors='coerce')`), generates the full
cross-product of row indices (`recordlinkage.Index().full()`), computes
four per-field similarity scores (Jaro–Winkler for `first_name`,
`last_name`, `city`; exact equality for `birthdate`), sums them into a
match score, joins the original rows back with `df1_`/`df2_` column
prefixes, and writes the full table plus the subset with score > 3.0.

Scores are modelled as exact rationals (`ℚ`); the Jaro–Winkler algorithm
is translated from the `jellyfish` library's implementation, which is
what `recordlinkage`'s `jarowinkler` method calls.
-/

/-- A cell of a loaded tabular dataset: missing (`NaN`/`NaT`), a string,
a canonical date (modelled as an integer day number), or a numeric score
(used only in rendered output rows). -/
inductive Cell where
  | na : Cell
  | str (s : String) : Cell
  | date (d : Int) : Cell
  | num (q : ℚ) : Cell
deriving DecidableEq, Repr

/-- An in-memory tabular dataset: a header naming the columns and a list
of rows, each a list of cells in column order (the pandas `DataFrame`
produced by `pd.read_excel`). -/
structure DataFrame where
  cols : List String
  rows : List (List Cell)
deriving DecidableEq, Repr

/-- Position of a named column, `None` when the column is absent
(a lookup on an absent name raises `KeyError` in pandas). -/
def DataFrame.colIdx (df : DataFrame) (name : String) : Option Nat :=
  df.cols.findIdx? (fun c => c == name)

/-- The cells of a named column, in row order; `None` when the column is
absent. -/
def DataFrame.col (df : DataFrame) (name : String) : Option (List Cell) :=
  (df.colIdx name).map (fun i => df.rows.map (fun r => r.getD i .na))

/-- `pd.to_datetime(v, errors='coerce')` on one value: parseable values
become canonical dates, anything else (including missing) becomes `NaT`.
The element parser is a parameter; the claims hold for every parser. -/
def toDatetimeCoerce (parse : Cell → Option Int) (c : Cell) : Cell :=
  match parse c with
  | some d => .date d
  | none => .na

/-- Lines 9–11 of the script: `if 'birthdate' in d.columns:` guard, then
column-wise coercion of `birthdate` to datetime with `errors='coerce'`. -/
def preprocess (parse : Cell → Option Int) (df : DataFrame) : DataFrame :=
  match df.cols.findIdx? (fun c => c == "birthdate") with
  | some i =>
      ⟨df.cols,
       df.rows.map (fun r => r.set i (toDatetimeCoerce parse (r.getD i .na)))⟩
  | none => df

/-- Lines 14–16: `recordlinkage.Index().full()` — the full cross-product
of row positions, A-index major, B-index ascending within each A-index
(`pd.MultiIndex.from_product`). -/
def fullIndex (n m : Nat) : List (Nat × Nat) :=
  (List.range n).flatMap (fun i => (List.range m).map (fun j => (i, j)))

/-! ### Jaro–Winkler similarity, translated from `jellyfish` -/

/-- One iteration of the matching loop of `jellyfish._jaro_winkler`: for
ying index `i`, scan the window `[i - r, min (i + r) (|yang| - 1)]` for
the first unflagged yang position holding the same character; on success
flag both sides.  The accumulator carries (ying flags so far, yang
flags). -/
def jaroStep (ying yang : List Char) (r : Nat)
    (acc : List Bool × List Bool) (i : Nat) : List Bool × List Bool :=
  match (List.range' (i - r) (min (i + r) (yang.length - 1) + 1 - (i - r))).find?
      (fun j => !(acc.2.getD j true) && (yang.getD j ' ' == ying.getD i ' ')) with
  | some j => (acc.1 ++ [true], acc.2.set j true)
  | none => (acc.1 ++ [false], acc.2)

/-- The complete matching loop: flags for every ying and yang position. -/
def jaroMatch (ying yang : List Char) (r : Nat) : List Bool × List Bool :=
  (List.range ying.length).foldl (jaroStep ying yang r)
    ([], List.replicate yang.length false)

/-- The characters at flagged positions, in order. -/
def matchedChars (s : List Char) (flags : List Bool) : List Char :=
  ((s.zip flags).filter (fun p => p.2)).map (fun p => p.1)

/-- The transposition count of `jellyfish._jaro_winkler`: walk the
flagged characters of both strings in order, count positions where they
differ, halve (floor). -/
def transCount (ying yang : List Char) (yf gf : List Bool) : Nat :=
  (((matchedChars ying yf).zip (matchedChars yang gf)).countP
    (fun p => !(p.1 == p.2))) / 2

/-- The three-way Jaro average for `c` common characters and `t`
transpositions over strings of lengths `n1`, `n2`. -/
def jaroWeight (n1 n2 c t : Nat) : ℚ :=
  ((c : ℚ) / n1 + (c : ℚ) / n2 + ((c : ℚ) - (t : ℚ)) / c) / 3

/-- The non-empty case of `jellyfish._jaro_winkler` given the computed
flags: 0 when no characters match, else the three-way average. -/
def jaroCore (ying yang : List Char) (fl : List Bool × List Bool) : ℚ :=
  if fl.1.count true = 0 then 0
  else jaroWeight ying.length yang.length (fl.1.count true)
    (transCount ying yang fl.1 fl.2)

/-- Jaro similarity exactly as in `jellyfish._jaro_winkler`: 0 when either
string is empty or no characters match; otherwise the usual three-way
average, with search range `max |s1| |s2| / 2 - 1` (clamped at 0). -/
def jaroSim (ying yang : List Char) : ℚ :=
  if ying.length = 0 ∨ yang.length = 0 then 0
  else jaroCore ying yang
    (jaroMatch ying yang ((max ying.length yang.length) / 2 - 1))

/-- Length of the common prefix of two character lists. -/
def commonPrefixLen : List Char → List Char → Nat
  | a :: as, b :: bs => if a = b then commonPrefixLen as bs + 1 else 0
  | _, _ => 0

/-- The Winkler prefix boost of `jellyfish._jaro_winkler`: applied only
when the Jaro weight exceeds 0.7 and both strings are longer than 3;
rewards up to 4 characters of common prefix. -/
def winklerBoost (s1 s2 : String) (w : ℚ) : ℚ :=
  if 7/10 < w ∧ 3 < s1.length ∧ 3 < s2.length then
    w + ((min (commonPrefixLen s1.toList s2.toList) 4 : Nat) : ℚ)
      * (1/10) * (1 - w)
  else w

/-- `jellyfish.jaro_winkler_similarity` (no long tolerance). -/
def jaroWinkler (s1 s2 : String) : ℚ :=
  winklerBoost s1 s2 (jaroSim s1.toList s2.toList)

/-! ### The four per-field comparisons -/

/-- `Compare.string(..., method='jarowinkler')` on one pair of cells,
with `recordlinkage`'s error handling (`jaro_winkler_apply`): two
present strings are compared with Jaro–Winkler; a missing value on
either side yields 0.0 (`jellyfish` raises, the wrapper catches it for
a null operand and the NaN becomes the `missing_value` default 0.0);
a present non-string on either side makes the wrapper re-raise
`jellyfish`'s `TypeError`, aborting the run. -/
def simStringE (c1 c2 : Cell) : Except String ℚ :=
  match c1, c2 with
  | .str s1, .str s2 => .ok (jaroWinkler s1 s2)
  | .na, _ => .ok 0
  | _, .na => .ok 0
  | _, _ => .error "TypeError"

/-- The fuzzy string score on the non-raising inputs: the value
`simStringE` returns where it does not raise (two present strings, or a
missing value on either side). -/
def simString (c1 c2 : Cell) : ℚ :=
  match c1, c2 with
  | .str s1, .str s2 => jaroWinkler s1 s2
  | _, _ => 0

/-- `True` exactly for the cells the text columns (`first_name`,
`last_name`, `city`) may hold without the comparison raising: a string
or a missing value. -/
def isStrOrNa : Cell → Bool
  | .str _ => true
  | .na => true
  | _ => false

/-- `Compare.exact(...)` on one pair of cells: 1 when both values are
present and equal, 0 otherwise (missing on either side yields the
`missing_value` default 0; `NaT == NaT` is false in pandas). -/
def simExact (c1 c2 : Cell) : ℚ :=
  match c1, c2 with
  | .na, _ => 0
  | _, .na => 0
  | a, b => if a = b then 1 else 0

/-- The feature vector of one candidate pair: the four labelled scores,
in the order the comparisons are registered (lines 20–23). -/
structure Features where
  fn : ℚ
  ln : ℚ
  bd : ℚ
  ct : ℚ
deriving DecidableEq, Repr

/-- Line 28: `features['match_score'] = features.sum(axis=1)` — the sum
of the four per-field scores. -/
def matchScore (f : Features) : ℚ := f.fn + f.ln + f.bd + f.ct

/-- Cell of a column list at a row position (positions produced by
`fullIndex` are always in range; `.na` is an unreachable default). -/
def cellAt (cells : List Cell) (i : Nat) : Cell := cells.getD i .na

/-- The feature vector of one candidate pair, or the `TypeError` a
present non-string value in a text column makes the comparison raise.
(`recordlinkage` computes column-wise — all pairs' `first_name` scores,
then `last_name`, … — so which `TypeError` surfaces first may differ
from this pair-wise order, but the run succeeds or aborts on exactly the
same inputs.) -/
def featuresOfPair (fn1 fn2 ln1 ln2 bd1 bd2 ct1 ct2 : List Cell)
    (p : Nat × Nat) : Except String Features :=
  match simStringE (cellAt fn1 p.1) (cellAt fn2 p.2),
        simStringE (cellAt ln1 p.1) (cellAt ln2 p.2),
        simStringE (cellAt ct1 p.1) (cellAt ct2 p.2) with
  | .ok a, .ok b, .ok d =>
      .ok ⟨a, b, simExact (cellAt bd1 p.1) (cellAt bd2 p.2), d⟩
  | .error e, _, _ => .error e
  | _, .error e, _ => .error e
  | _, _, .error e => .error e

/-- One feature vector per candidate pair, stopping at the first raising
comparison. -/
def computeRows (f : Nat × Nat → Except String Features) :
    List (Nat × Nat) → Except String (List Features)
  | [] => .ok []
  | p :: ps =>
      match f p with
      | .error e => .error e
      | .ok x =>
          match computeRows f ps with
          | .error e => .error e
          | .ok xs => .ok (x :: xs)

/-- Lines 19–25: `compare.compute(candidate_links, df1, df2)`.  Looking
up a compared column that is absent raises `KeyError` (modelled as
`.error`); a present non-string value in a text column raises
`TypeError`; otherwise one feature vector per candidate pair. -/
def computeFeatures (df1 df2 : DataFrame) (links : List (Nat × Nat)) :
    Except String (List Features) :=
  match df1.col "first_name", df2.col "first_name",
        df1.col "last_name", df2.col "last_name",
        df1.col "birthdate", df2.col "birthdate",
        df1.col "city", df2.col "city" with
  | some fn1, some fn2, some ln1, some ln2,
    some bd1, some bd2, some ct1, some ct2 =>
      computeRows (featuresOfPair fn1 fn2 ln1 ln2 bd1 bd2 ct1 ct2) links
  | _, _, _, _, _, _, _, _ => .error "KeyError"

/-! ### Result assembly and output -/

/-- `df.add_prefix(pre)` applied to the column names. -/
def prefixedCols (pre : String) (cols : List String) : List String :=
  cols.map (fun c => pre ++ c)

/-- Header of the merged table after dropping `level_0`/`level_1`
(lines 31–44): the four probabilities and the match score, then every
column of A prefixed `df1_`, then every column of B prefixed `df2_`. -/
def mergedHeader (df1 df2 : DataFrame) : List String :=
  ["prob_first_name", "prob_last_name", "prob_birthdate", "prob_city",
   "match_score"]
    ++ prefixedCols "df1_" df1.cols ++ prefixedCols "df2_" df2.cols

/-- One merged row: the five score cells followed by the full row of A
and the full row of B (the `how='left'` merges on `level_0`/`level_1`
against the dataframe indices, which always succeed). -/
def mergedRow (df1 df2 : DataFrame) (p : Nat × Nat) (f : Features) :
    List Cell :=
  [.num f.fn, .num f.ln, .num f.bd, .num f.ct, .num (matchScore f)]
    ++ df1.rows.getD p.1 [] ++ df2.rows.getD p.2 []

/-- The `match_score` column of a rendered merged row. -/
def getScore (r : List Cell) : ℚ :=
  match r.getD 4 .na with
  | .num q => q
  | _ => 0

/-- A rendered output table (one CSV file). -/
structure OutTable where
  header : List String
  rows : List (List Cell)
deriving DecidableEq, Repr

/-- The two outputs of the script: the "all pairs" file and the
high-confidence "matches" file. -/
structure PipelineOut where
  allPairs : OutTable
  matched : OutTable
deriving DecidableEq, Repr

/-- The classification threshold of line 51 (`match_score > 3.0`). -/
def threshold : ℚ := 3

/-- The whole script, from the two loaded dataframes to the two output
tables: preprocess birthdates, index the full cross-product, compute
features and match scores, merge the original rows back, and filter the
high-confidence subset. -/
def pipeline (parse : Cell → Option Int) (df1raw df2raw : DataFrame) :
    Except String PipelineOut :=
  let df1 := preprocess parse df1raw
  let df2 := preprocess parse df2raw
  let links := fullIndex df1.rows.length df2.rows.length
  match computeFeatures df1 df2 links with
  | .error e => .error e
  | .ok feats =>
      let header := mergedHeader df1 df2
      let allRows := (links.zip feats).map
        (fun q => mergedRow df1 df2 q.1 q.2)
      let matchRows := allRows.filter (fun r => decide (threshold < getScore r))
      .ok ⟨⟨header, allRows⟩, ⟨header, matchRows⟩⟩

/-! ### Basic list helpers -/

theorem getD_set_self {α : Type} : ∀ (r : List α) (i : Nat) (v d : α),
    (r.set i v).getD i d = if i < r.length then v else d
  | [], _, _, _ => by simp
  | _ :: _, 0, _, _ => by simp
  | a :: r, i + 1, v, d => by
      have ih := getD_set_self r i v d
      simp only [List.set, List.getD_cons_succ, List.length_cons, ih,
        Nat.add_lt_add_iff_right]

theorem count_true_set (l : List Bool) (j : Nat) (h : l.getD j true = false) :
    (l.set j true).count true = l.count true + 1 := by
  have hj : j < l.length := by
    by_contra hj
    rw [List.getD_eq_getElem?_getD, List.getElem?_eq_none (by omega)] at h
    simp at h
  have hv : l[j] = false := by
    rw [List.getD_eq_getElem?_getD, List.getElem?_eq_getElem hj] at h
    simpa using h
  rw [List.count_set true true l j hj, hv]
  simp

theorem col_eq_none_of_not_mem (df : DataFrame) (name : String)
    (h : name ∉ df.cols) : df.col name = none := by
  unfold DataFrame.col DataFrame.colIdx
  rw [List.findIdx?_eq_none_iff.mpr]
  · rfl
  · intro x hx
    simp only [beq_eq_false_iff_ne]
    exact fun he => h (he ▸ hx)

theorem col_isSome_of_mem (df : DataFrame) (name : String)
    (h : name ∈ df.cols) : (df.col name).isSome = true := by
  obtain ⟨i, hi⟩ : ∃ i, df.cols.findIdx? (fun c => c == name) = some i := by
    cases h2 : df.cols.findIdx? (fun c => c == name) with
    | some i => exact ⟨i, rfl⟩
    | none =>
        rw [List.findIdx?_eq_none_iff] at h2
        exact absurd (h2 name h) (by simp)
  simp [DataFrame.col, DataFrame.colIdx, hi]

theorem preprocess_cols (parse : Cell → Option Int) (df : DataFrame) :
    (preprocess parse df).cols = df.cols := by
  unfold preprocess
  split <;> rfl

theorem preprocess_rows_length (parse : Cell → Option Int) (df : DataFrame) :
    (preprocess parse df).rows.length = df.rows.length := by
  unfold preprocess
  split <;> simp

/-! ### The candidate pair generator -/

theorem fullIndex_succ (n m : Nat) :
    fullIndex (n + 1) m
      = fullIndex n m ++ (List.range m).map (fun j => (n, j)) := by
  unfold fullIndex
  rw [List.range_succ, List.flatMap_append]
  simp

/-- C1: the candidate pair generator yields exactly `n * m` pairs, with
no duplicate, covering the whole cross-product, ordered with the A-index
major and the B-index ascending within each A-index. -/
theorem candidate_pairs_cross_product (n m : Nat) :
    (fullIndex n m).length = n * m ∧ (fullIndex n m).Nodup ∧
    (∀ p : Nat × Nat, p ∈ fullIndex n m ↔ p.1 < n ∧ p.2 < m) ∧
    (fullIndex n m).Pairwise
      (fun p q => p.1 < q.1 ∨ (p.1 = q.1 ∧ p.2 < q.2)) := by
  induction n with
  | zero => simp [fullIndex]
  | succ n ih =>
    obtain ⟨ihl, ihn, ihm, ihp⟩ := ih
    rw [fullIndex_succ]
    refine ⟨?_, ?_, ?_, ?_⟩
    · simp [ihl, Nat.succ_mul]
    · refine List.Nodup.append ihn ?_ ?_
      · exact (List.nodup_range m).map
          (fun a b h => by simpa using congrArg Prod.snd h)
      · intro p hp hq
        obtain ⟨j, _, rfl⟩ := List.mem_map.mp hq
        exact absurd ((ihm _).mp hp).1 (by omega)
    · intro p
      rw [List.mem_append, ihm p, List.mem_map]
      constructor
      · rintro (⟨h1, h2⟩ | ⟨j, hj, rfl⟩)
        · exact ⟨Nat.lt_succ_of_lt h1, h2⟩
        · exact ⟨Nat.lt_succ_self n, by simpa using List.mem_range.mp hj⟩
      · rintro ⟨h1, h2⟩
        rcases Nat.lt_succ_iff_lt_or_eq.mp h1 with h | h
        · exact Or.inl ⟨h, h2⟩
        · exact Or.inr ⟨p.2, List.mem_range.mpr h2, by cases p; simp_all⟩
    · rw [List.pairwise_append]
      refine ⟨ihp, ?_, ?_⟩
      · rw [List.pairwise_map]
        exact (List.pairwise_lt_range m).imp (fun h => Or.inr ⟨rfl, h⟩)
      · intro a ha b hb
        obtain ⟨j, _, rfl⟩ := List.mem_map.mp hb
        exact Or.inl ((ihm a).mp ha).1

/-! ### Bounds on the Jaro–Winkler score -/

theorem jaroStep_counts (ying yang : List Char) (r : Nat)
    (acc : List Bool × List Bool) (i : Nat) :
    (jaroStep ying yang r acc i).1.count true + acc.2.count true
        = acc.1.count true + (jaroStep ying yang r acc i).2.count true ∧
    (jaroStep ying yang r acc i).2.length = acc.2.length ∧
    (jaroStep ying yang r acc i).1.length = acc.1.length + 1 := by
  unfold jaroStep
  cases hf : (List.range' (i - r)
        (min (i + r) (yang.length - 1) + 1 - (i - r))).find?
      (fun j => !(acc.2.getD j true) && (yang.getD j ' ' == ying.getD i ' '))
      with
  | none => simp
  | some j =>
      have hp := List.find?_some hf
      simp only [Bool.and_eq_true, Bool.not_eq_true'] at hp
      refine ⟨?_, by simp, by simp⟩
      rw [List.count_append, count_true_set acc.2 j hp.1]
      simp
      omega

theorem jaroFold_counts (ying yang : List Char) (r : Nat) :
    ∀ (is : List Nat) (acc : List Bool × List Bool),
    (is.foldl (jaroStep ying yang r) acc).1.count true + acc.2.count true
        = acc.1.count true
          + (is.foldl (jaroStep ying yang r) acc).2.count true ∧
    (is.foldl (jaroStep ying yang r) acc).2.length = acc.2.length ∧
    (is.foldl (jaroStep ying yang r) acc).1.length
        = acc.1.length + is.length
  | [], acc => by simp
  | i :: is, acc => by
      have h1 := jaroStep_counts ying yang r acc i
      have h2 := jaroFold_counts ying yang r is (jaroStep ying yang r acc i)
      simp only [List.foldl_cons, List.length_cons]
      omega

theorem jaroMatch_counts (ying yang : List Char) (r : Nat) :
    (jaroMatch ying yang r).1.count true
        = (jaroMatch ying yang r).2.count true ∧
    (jaroMatch ying yang r).2.length = yang.length ∧
    (jaroMatch ying yang r).1.length = ying.length := by
  obtain ⟨hc, hl2, hl1⟩ := jaroFold_counts ying yang r
    (List.range ying.length) ([], List.replicate yang.length false)
  unfold jaroMatch
  have hrep : (List.replicate yang.length false).count true = 0 := by
    simp [List.count_replicate]
  simp at hc hl2 hl1
  refine ⟨?_, ?_, ?_⟩ <;> omega

theorem matchedChars_length : ∀ (s : List Char) (f : List Bool),
    s.length = f.length → (matchedChars s f).length = f.count true
  | [], [], _ => by simp [matchedChars]
  | [], _ :: _, h => by simp at h
  | _ :: _, [], h => by simp at h
  | a :: s, b :: f, h => by
      have ih := matchedChars_length s f (by simpa using h)
      cases b
      · simpa [matchedChars, List.count_cons] using ih
      · simpa [matchedChars, List.count_cons] using ih

theorem transCount_le (ying yang : List Char) (yf gf : List Bool)
    (h : ying.length = yf.length) :
    transCount ying yang yf gf ≤ yf.count true := by
  unfold transCount
  have h1 : (((matchedChars ying yf).zip (matchedChars yang gf)).countP
      (fun p => !(p.1 == p.2))) ≤ (matchedChars ying yf).length := by
    calc ((matchedChars ying yf).zip (matchedChars yang gf)).countP
          (fun p => !(p.1 == p.2))
        ≤ ((matchedChars ying yf).zip (matchedChars yang gf)).length :=
          List.countP_le_length _
      _ ≤ (matchedChars ying yf).length := by
          rw [List.length_zip]; exact min_le_left _ _
  rw [matchedChars_length ying yf h] at h1
  omega

theorem jaroWeight_bounds (n1 n2 c t : Nat) (h1 : 0 < n1) (h2 : 0 < n2)
    (hc : 0 < c) (hc1 : c ≤ n1) (hc2 : c ≤ n2) (ht : t ≤ c) :
    0 ≤ jaroWeight n1 n2 c t ∧ jaroWeight n1 n2 c t ≤ 1 := by
  have hn1 : (0 : ℚ) < n1 := by exact_mod_cast h1
  have hn2 : (0 : ℚ) < n2 := by exact_mod_cast h2
  have hcq : (0 : ℚ) < c := by exact_mod_cast hc
  have e1 : (0 : ℚ) ≤ (c : ℚ) / n1 := by positivity
  have e2 : (c : ℚ) / n1 ≤ 1 := by
    rw [div_le_one hn1]; exact_mod_cast hc1
  have e3 : (0 : ℚ) ≤ (c : ℚ) / n2 := by positivity
  have e4 : (c : ℚ) / n2 ≤ 1 := by
    rw [div_le_one hn2]; exact_mod_cast hc2
  have htq : (t : ℚ) ≤ c := by exact_mod_cast ht
  have ht0 : (0 : ℚ) ≤ t := by positivity
  have e5 : (0 : ℚ) ≤ ((c : ℚ) - t) / c := by
    apply div_nonneg _ hcq.le
    linarith
  have e6 : ((c : ℚ) - t) / c ≤ 1 := by
    rw [div_le_one hcq]
    linarith
  unfold jaroWeight
  constructor <;> linarith

theorem jaroSim_bounds (ying yang : List Char) :
    0 ≤ jaroSim ying yang ∧ jaroSim ying yang ≤ 1 := by
  unfold jaroSim
  split
  · norm_num
  next hne =>
    push_neg at hne
    unfold jaroCore
    split
    · norm_num
    next hc =>
      obtain ⟨heq, hl2, hl1⟩ :=
        jaroMatch_counts ying yang ((max ying.length yang.length) / 2 - 1)
      apply jaroWeight_bounds
      · omega
      · omega
      · omega
      · have := List.count_le_length true
          (jaroMatch ying yang ((max ying.length yang.length) / 2 - 1)).1
        omega
      · have := List.count_le_length true
          (jaroMatch ying yang ((max ying.length yang.length) / 2 - 1)).2
        omega
      · exact transCount_le ying yang _ _ hl1.symm

theorem winklerBoost_bounds (s1 s2 : String) (w : ℚ) (h0 : 0 ≤ w)
    (h1 : w ≤ 1) :
    0 ≤ winklerBoost s1 s2 w ∧ winklerBoost s1 s2 w ≤ 1 := by
  unfold winklerBoost
  split
  · have hl : ((min (commonPrefixLen s1.toList s2.toList) 4 : Nat) : ℚ) ≤ 4 := by
      exact_mod_cast min_le_right (commonPrefixLen s1.toList s2.toList) 4
    have hl0 : (0 : ℚ) ≤ ((min (commonPrefixLen s1.toList s2.toList) 4 : Nat) : ℚ) := by
      positivity
    constructor <;> nlinarith
  · exact ⟨h0, h1⟩

theorem jaroWinkler_bounds (s1 s2 : String) :
    0 ≤ jaroWinkler s1 s2 ∧ jaroWinkler s1 s2 ≤ 1 := by
  have h := jaroSim_bounds s1.toList s2.toList
  exact winklerBoost_bounds s1 s2 _ h.1 h.2

theorem simString_bounds (c1 c2 : Cell) :
    0 ≤ simString c1 c2 ∧ simString c1 c2 ≤ 1 := by
  unfold simString
  split
  · exact jaroWinkler_bounds _ _
  · norm_num

theorem simExact_bounds (c1 c2 : Cell) :
    0 ≤ simExact c1 c2 ∧ simExact c1 c2 ≤ 1 := by
  unfold simExact
  split
  · norm_num
  · norm_num
  · split <;> norm_num

/-! ### Identical non-empty strings have Jaro–Winkler similarity 1 -/

theorem find?_range'_eq_some (p : Nat → Bool) (k : Nat) :
    ∀ (lo len : Nat), lo ≤ k → k < lo + len →
    (∀ j, lo ≤ j → j < k → p j = false) → p k = true →
    (List.range' lo len).find? p = some k
  | _, 0, _, hlen, _, _ => by omega
  | lo, len + 1, hlo, hlen, hbelow, hk => by
      rw [List.range'_succ]
      rcases Nat.eq_or_lt_of_le hlo with heq | hlt
      · subst heq
        exact List.find?_cons_of_pos _ hk
      · rw [List.find?_cons_of_neg _ (by simp [hbelow lo le_rfl hlt])]
        exact find?_range'_eq_some p k (lo + 1) len hlt (by omega)
          (fun j h1 h2 => hbelow j (by omega) h2) hk

theorem jaroSelf_fold (s : List Char) (r : Nat) :
    ∀ k, k ≤ s.length →
    (List.range k).foldl (jaroStep s s r)
        ([], List.replicate s.length false)
      = (List.replicate k true,
         List.replicate k true ++ List.replicate (s.length - k) false)
  | 0, _ => by simp
  | k + 1, hk => by
      have ih := jaroSelf_fold s r k (by omega)
      rw [List.range_succ, List.foldl_append, ih]
      simp only [List.foldl_cons, List.foldl_nil]
      unfold jaroStep
      rw [show (List.range' (k - r) (min (k + r) (s.length - 1) + 1 - (k - r))).find?
            (fun j => !((List.replicate k true
                ++ List.replicate (s.length - k) false).getD j true)
              && (s.getD j ' ' == s.getD k ' ')) = some k from ?_]
      · rw [Prod.mk.injEq]
        constructor
        · rw [List.replicate_succ']
        · rw [List.set_append, if_neg (by simp)]
          have hrem : s.length - k = (s.length - (k + 1)) + 1 := by omega
          rw [List.length_replicate, Nat.sub_self, hrem, List.replicate_succ,
            List.set_cons_zero, List.replicate_succ']
          simp
      · apply find?_range'_eq_some
        · omega
        · omega
        · intro j h1 h2
          have hj : (List.replicate k true
              ++ List.replicate (s.length - k) false).getD j true = true := by
            rw [List.getD_append _ _ _ j (by simp [h2])]
            rw [List.getD_eq_getElem?_getD, List.getElem?_replicate, if_pos h2]
            rfl
          rw [List.getD_eq_getElem?_getD] at hj
          simp [hj]
        · have hg : (List.replicate k true
              ++ List.replicate (s.length - k) false).getD k true = false := by
            rw [List.getD_append_right _ _ _ k (by simp)]
            simp only [List.length_replicate, Nat.sub_self]
            rw [List.getD_eq_getElem?_getD, List.getElem?_replicate,
              if_pos (by omega)]
            rfl
          rw [List.getD_eq_getElem?_getD] at hg
          simp [hg]

theorem jaroMatch_self (s : List Char) (r : Nat) :
    jaroMatch s s r
      = (List.replicate s.length true, List.replicate s.length true) := by
  unfold jaroMatch
  rw [jaroSelf_fold s r s.length le_rfl]
  simp

theorem matchedChars_self : ∀ (s : List Char),
    matchedChars s (List.replicate s.length true) = s
  | [] => rfl
  | a :: s => by
      have ih := matchedChars_self s
      simp only [List.length_cons, List.replicate_succ, matchedChars,
        List.zip_cons_cons, List.filter_cons] at ih ⊢
      simpa using ih

theorem zip_self_eq : ∀ (s : List Char) (p : Char × Char),
    p ∈ s.zip s → p.1 = p.2
  | [], _, hp => by simp at hp
  | a :: s, p, hp => by
      rw [List.zip_cons_cons] at hp
      rcases List.mem_cons.mp hp with h | h
      · subst h; rfl
      · exact zip_self_eq s p h

theorem transCount_self (s : List Char) :
    transCount s s (List.replicate s.length true)
      (List.replicate s.length true) = 0 := by
  unfold transCount
  rw [matchedChars_self]
  have hz : (s.zip s).countP (fun p => !(p.1 == p.2)) = 0 := by
    rw [List.countP_eq_zero]
    intro p hp
    simp [zip_self_eq s p hp]
  rw [hz]

theorem jaroSim_self (s : List Char) (hs : s ≠ []) : jaroSim s s = 1 := by
  have hn : 0 < s.length := List.length_pos.mpr hs
  unfold jaroSim
  rw [if_neg (by omega), jaroMatch_self]
  unfold jaroCore
  simp only [List.count_replicate_self]
  rw [if_neg (by omega), transCount_self]
  unfold jaroWeight
  have hq : ((s.length : ℚ)) ≠ 0 := by
    exact_mod_cast hn.ne'
  field_simp
  norm_num

theorem jaroWinkler_self (s : String) (hs : s ≠ "") : jaroWinkler s s = 1 := by
  have hl : s.toList ≠ [] := by
    intro h
    exact hs (String.ext h)
  unfold jaroWinkler
  rw [jaroSim_self s.toList hl]
  unfold winklerBoost
  split
  · ring
  · rfl

/-! ### Further helpers about the pipeline -/

theorem fullIndex_length (n m : Nat) : (fullIndex n m).length = n * m := by
  induction n with
  | zero => simp [fullIndex]
  | succ n ih => rw [fullIndex_succ]; simp [ih, Nat.succ_mul]

theorem matchScore_bounds_of_components (f : Features)
    (h1 : 0 ≤ f.fn ∧ f.fn ≤ 1) (h2 : 0 ≤ f.ln ∧ f.ln ≤ 1)
    (h3 : 0 ≤ f.bd ∧ f.bd ≤ 1) (h4 : 0 ≤ f.ct ∧ f.ct ≤ 1) :
    0 ≤ matchScore f ∧ matchScore f ≤ 4 := by
  obtain ⟨a1, a2⟩ := h1
  obtain ⟨b1, b2⟩ := h2
  obtain ⟨c1, c2⟩ := h3
  obtain ⟨d1, d2⟩ := h4
  unfold matchScore
  constructor <;> linarith

theorem computeRows_length (f : Nat × Nat → Except String Features) :
    ∀ (links : List (Nat × Nat)) (fs : List Features),
    computeRows f links = .ok fs → fs.length = links.length
  | [], fs, h => by
      unfold computeRows at h
      rw [Except.ok.injEq] at h
      subst h
      rfl
  | p :: ps, fs, h => by
      unfold computeRows at h
      split at h
      · simp at h
      · split at h
        · simp at h
        next xs hxs =>
          rw [Except.ok.injEq] at h
          subst h
          simp [computeRows_length f ps xs hxs]

theorem computeRows_ok_mem (f : Nat × Nat → Except String Features) :
    ∀ (links : List (Nat × Nat)) (fs : List Features),
    computeRows f links = .ok fs → ∀ x ∈ fs, ∃ p ∈ links, f p = .ok x
  | [], fs, h => by
      unfold computeRows at h
      rw [Except.ok.injEq] at h
      subst h
      intro x hx
      simp at hx
  | p :: ps, fs, h => by
      unfold computeRows at h
      split at h
      · simp at h
      next v hv =>
        split at h
        · simp at h
        next xs hxs =>
          rw [Except.ok.injEq] at h
          subst h
          intro x hx
          rcases List.mem_cons.mp hx with rfl | hx
          · exact ⟨p, List.mem_cons_self p ps, hv⟩
          · obtain ⟨q, hq, hfq⟩ := computeRows_ok_mem f ps xs hxs x hx
            exact ⟨q, List.mem_cons_of_mem p hq, hfq⟩

theorem computeRows_ok_of_forall (f : Nat × Nat → Except String Features) :
    ∀ (links : List (Nat × Nat)),
    (∀ p ∈ links, ∃ x, f p = .ok x) → ∃ fs, computeRows f links = .ok fs
  | [], _ => ⟨[], rfl⟩
  | p :: ps, h => by
      obtain ⟨x, hx⟩ := h p (List.mem_cons_self p ps)
      obtain ⟨xs, hxs⟩ := computeRows_ok_of_forall f ps
        (fun q hq => h q (List.mem_cons_of_mem p hq))
      exact ⟨x :: xs, by simp [computeRows, hx, hxs]⟩

theorem simStringE_ok_bounds (c1 c2 : Cell) (q : ℚ)
    (h : simStringE c1 c2 = .ok q) : 0 ≤ q ∧ q ≤ 1 := by
  unfold simStringE at h
  split at h
  · rw [Except.ok.injEq] at h
    subst h
    exact jaroWinkler_bounds _ _
  · rw [Except.ok.injEq] at h
    subst h
    norm_num
  · rw [Except.ok.injEq] at h
    subst h
    norm_num
  · simp at h

theorem simStringE_ok_of_strOrNa (c1 c2 : Cell)
    (h1 : isStrOrNa c1 = true) (h2 : isStrOrNa c2 = true) :
    ∃ q, simStringE c1 c2 = .ok q := by
  cases c1 <;> cases c2 <;>
    first
      | exact ⟨_, rfl⟩
      | simp_all [isStrOrNa]

theorem cellAt_strOrNa (cells : List Cell) (i : Nat)
    (h : ∀ c ∈ cells, isStrOrNa c = true) :
    isStrOrNa (cellAt cells i) = true := by
  unfold cellAt
  rw [List.getD_eq_getElem?_getD]
  cases hx : cells[i]? with
  | none => rfl
  | some c => exact h c (List.getElem?_mem hx)

theorem featuresOfPair_ok_bounds
    (fn1 fn2 ln1 ln2 bd1 bd2 ct1 ct2 : List Cell) (p : Nat × Nat)
    (f : Features)
    (h : featuresOfPair fn1 fn2 ln1 ln2 bd1 bd2 ct1 ct2 p = .ok f) :
    0 ≤ matchScore f ∧ matchScore f ≤ 4 := by
  unfold featuresOfPair at h
  split at h
  case _ a b d ha hb hd =>
    rw [Except.ok.injEq] at h
    subst h
    exact matchScore_bounds_of_components _
      (simStringE_ok_bounds _ _ _ ha) (simStringE_ok_bounds _ _ _ hb)
      (simExact_bounds _ _) (simStringE_ok_bounds _ _ _ hd)
  all_goals simp at h

theorem featuresOfPair_ok_of_strOrNa
    (fn1 fn2 ln1 ln2 bd1 bd2 ct1 ct2 : List Cell) (p : Nat × Nat)
    (hs1 : ∀ c ∈ fn1, isStrOrNa c = true)
    (hs2 : ∀ c ∈ fn2, isStrOrNa c = true)
    (hs3 : ∀ c ∈ ln1, isStrOrNa c = true)
    (hs4 : ∀ c ∈ ln2, isStrOrNa c = true)
    (hs5 : ∀ c ∈ ct1, isStrOrNa c = true)
    (hs6 : ∀ c ∈ ct2, isStrOrNa c = true) :
    ∃ x, featuresOfPair fn1 fn2 ln1 ln2 bd1 bd2 ct1 ct2 p = .ok x := by
  obtain ⟨a, ha⟩ := simStringE_ok_of_strOrNa _ _
    (cellAt_strOrNa fn1 p.1 hs1) (cellAt_strOrNa fn2 p.2 hs2)
  obtain ⟨b, hb⟩ := simStringE_ok_of_strOrNa _ _
    (cellAt_strOrNa ln1 p.1 hs3) (cellAt_strOrNa ln2 p.2 hs4)
  obtain ⟨d, hd⟩ := simStringE_ok_of_strOrNa _ _
    (cellAt_strOrNa ct1 p.1 hs5) (cellAt_strOrNa ct2 p.2 hs6)
  refine ⟨⟨a, b, simExact (cellAt bd1 p.1) (cellAt bd2 p.2), d⟩, ?_⟩
  unfold featuresOfPair
  rw [ha, hb, hd]

theorem computeFeatures_length (df1 df2 : DataFrame)
    (links : List (Nat × Nat)) (fs : List Features)
    (h : computeFeatures df1 df2 links = .ok fs) :
    fs.length = links.length := by
  unfold computeFeatures at h
  split at h
  · exact computeRows_length _ links fs h
  · simp at h

theorem computeFeatures_error_of_missing (df1 df2 : DataFrame)
    (links : List (Nat × Nat))
    (h : df1.col "first_name" = none ∨ df1.col "last_name" = none ∨
         df1.col "birthdate" = none ∨ df1.col "city" = none ∨
         df2.col "first_name" = none ∨ df2.col "last_name" = none ∨
         df2.col "birthdate" = none ∨ df2.col "city" = none) :
    computeFeatures df1 df2 links = .error "KeyError" := by
  unfold computeFeatures
  split
  · rcases h with h | h | h | h | h | h | h | h <;> simp_all
  · rfl

/-- `True` exactly for the cells a coerced `birthdate` column may hold:
a canonical date or a missing value. -/
def isDateOrNa : Cell → Bool
  | .date _ => true
  | .na => true
  | _ => false

/-! ### Concrete inputs used by the witnesses -/

/-- A date parser that parses nothing: enough for the witnesses, which
quantify over arbitrary parsers elsewhere. -/
def parse0 : Cell → Option Int := fun _ => none

/-- A one-row dataset with all four compared columns missing-valued. -/
def exA : DataFrame :=
  ⟨["first_name", "last_name", "birthdate", "city"], [[.na, .na, .na, .na]]⟩

/-- A zero-row dataset with the four compared columns. -/
def exE : DataFrame := ⟨["first_name", "last_name", "birthdate", "city"], []⟩

/-- The merged header for two datasets with the four compared columns. -/
def hdrE : List String :=
  ["prob_first_name", "prob_last_name", "prob_birthdate", "prob_city",
   "match_score", "df1_first_name", "df1_last_name", "df1_birthdate",
   "df1_city", "df2_first_name", "df2_last_name", "df2_birthdate",
   "df2_city"]

/-- The pipeline output on two zero-row datasets: headers only. -/
def outE : PipelineOut := ⟨⟨hdrE, []⟩, ⟨hdrE, []⟩⟩

/-- One-row dataset carrying an extra `employee_id` attribute. -/
def exA2 : DataFrame :=
  ⟨["first_name", "last_name", "birthdate", "city", "employee_id"],
   [[.na, .na, .na, .na, .str "e1"]]⟩

/-- One-row dataset carrying an extra `student_id` attribute. -/
def exB2 : DataFrame :=
  ⟨["first_name", "last_name", "birthdate", "city", "student_id"],
   [[.na, .na, .na, .na, .str "s1"]]⟩

/-- A dataset with a raw string in its `birthdate` column. -/
def exBad : DataFrame := ⟨["birthdate"], [[.str "garbage"]]⟩

/-- A dataset lacking the compared `city` column. -/
def exNoCity : DataFrame := ⟨["first_name", "last_name", "birthdate"], []⟩

/-- A dataset lacking the `birthdate` column altogether. -/
def exNoBd : DataFrame := ⟨["x"], []⟩

/-! ### Claim theorems -/

/-- C2: for every candidate pair, the match score is the arithmetic sum
of exactly the four per-field scores and lies in the range [0, 4]. -/
theorem match_score_sum_and_range (df1 df2 : DataFrame)
    (links : List (Nat × Nat)) (fs : List Features)
    (h : computeFeatures df1 df2 links = .ok fs) (f : Features)
    (hf : f ∈ fs) :
    matchScore f = f.fn + f.ln + f.bd + f.ct ∧
    0 ≤ matchScore f ∧ matchScore f ≤ 4 := by
  refine ⟨rfl, ?_⟩
  unfold computeFeatures at h
  split at h
  · obtain ⟨p, hp, hfp⟩ := computeRows_ok_mem _ links fs h f hf
    exact featuresOfPair_ok_bounds _ _ _ _ _ _ _ _ p f hfp
  · simp at h

/-- Witness for C2 at a concrete one-pair run. -/
theorem match_score_sum_and_range_witness :
    matchScore ⟨0, 0, 0, 0⟩ = (0 : ℚ) + 0 + 0 + 0 ∧
    0 ≤ matchScore ⟨0, 0, 0, 0⟩ ∧ matchScore ⟨0, 0, 0, 0⟩ ≤ 4 :=
  match_score_sum_and_range exA exA [(0, 0)] [⟨0, 0, 0, 0⟩] rfl
    ⟨0, 0, 0, 0⟩ (List.mem_singleton.mpr rfl)

/-- C3: the "matches" output is exactly the rows of the "all pairs"
output whose match score strictly exceeds 3.0, in the same relative
order; a row scoring exactly 3.0 is excluded, and every matched row
occurs among the all-pairs rows. -/
theorem matched_rows_filter (parse : Cell → Option Int)
    (df1 df2 : DataFrame) (out : PipelineOut)
    (h : pipeline parse df1 df2 = .ok out) :
    out.matched.rows
        = out.allPairs.rows.filter (fun r => decide (threshold < getScore r)) ∧
    out.matched.rows.Sublist out.allPairs.rows ∧
    out.matched.header = out.allPairs.header ∧
    (∀ r ∈ out.matched.rows, threshold < getScore r ∧ r ∈ out.allPairs.rows) ∧
    (∀ r, getScore r = threshold → r ∉ out.matched.rows) := by
  simp only [pipeline] at h
  split at h
  · simp at h
  · rw [Except.ok.injEq] at h
    subst h
    refine ⟨rfl, List.filter_sublist _, rfl, ?_, ?_⟩
    · intro r hr
      have hm := List.mem_filter.mp hr
      exact ⟨by simpa using hm.2, hm.1⟩
    · intro r hr hmem
      have hm := (List.mem_filter.mp hmem).2
      rw [hr] at hm
      simp at hm

/-- Witness for C3 at a concrete run. -/
theorem matched_rows_filter_witness :
    outE.matched.rows
        = outE.allPairs.rows.filter (fun r => decide (threshold < getScore r)) ∧
    outE.matched.rows.Sublist outE.allPairs.rows :=
  ⟨(matched_rows_filter parse0 exE exE outE rfl).1,
   (matched_rows_filter parse0 exE exE outE rfl).2.1⟩

/-- C4 counterexample: on a concrete run the output header carries the
prefixes `df1_`/`df2_`, not the `a_`/`b_` prefixes the claim names; the
two header lists differ. -/
theorem prefix_header_counterexample :
    (pipeline parse0 exA2 exB2).map (fun o => o.allPairs.header)
      = .ok ["prob_first_name", "prob_last_name", "prob_birthdate",
             "prob_city", "match_score",
             "df1_first_name", "df1_last_name", "df1_birthdate", "df1_city",
             "df1_employee_id",
             "df2_first_name", "df2_last_name", "df2_birthdate", "df2_city",
             "df2_student_id"] ∧
    (["prob_first_name", "prob_last_name", "prob_birthdate",
      "prob_city", "match_score",
      "df1_first_name", "df1_last_name", "df1_birthdate", "df1_city",
      "df1_employee_id",
      "df2_first_name", "df2_last_name", "df2_birthdate", "df2_city",
      "df2_student_id"] : List String)
      ≠ ["prob_first_name", "prob_last_name", "prob_birthdate",
         "prob_city", "match_score",
         "a_first_name", "a_last_name", "a_birthdate", "a_city",
         "a_employee_id",
         "b_first_name", "b_last_name", "b_birthdate", "b_city",
         "b_student_id"] := by
  exact ⟨rfl, by decide⟩

/-- C4 (amended): every output row of both tables has the five score
columns in order, followed by every attribute of A prefixed `df1_`, then
every attribute of B prefixed `df2_`; the "all pairs" table has exactly
n·m rows. -/
theorem output_header_and_row_count (parse : Cell → Option Int)
    (df1 df2 : DataFrame) (out : PipelineOut)
    (h : pipeline parse df1 df2 = .ok out) :
    out.allPairs.header
        = ["prob_first_name", "prob_last_name", "prob_birthdate",
           "prob_city", "match_score"]
          ++ prefixedCols "df1_" df1.cols ++ prefixedCols "df2_" df2.cols ∧
    out.matched.header = out.allPairs.header ∧
    out.allPairs.rows.length = df1.rows.length * df2.rows.length := by
  simp only [pipeline] at h
  split at h
  · simp at h
  · rw [Except.ok.injEq] at h
    subst h
    rename_i fs heq
    refine ⟨?_, rfl, ?_⟩
    · unfold mergedHeader
      rw [preprocess_cols, preprocess_cols]
    · have h1 := computeFeatures_length _ _ _ _ heq
      rw [List.length_map, List.length_zip, h1, min_self, fullIndex_length,
        preprocess_rows_length, preprocess_rows_length]

/-- Witness for the amended C4 at a concrete run. -/
theorem output_header_and_row_count_witness :
    outE.allPairs.header
        = ["prob_first_name", "prob_last_name", "prob_birthdate",
           "prob_city", "match_score"]
          ++ prefixedCols "df1_" exE.cols ++ prefixedCols "df2_" exE.cols ∧
    outE.matched.header = outE.allPairs.header ∧
    outE.allPairs.rows.length = exE.rows.length * exE.rows.length :=
  output_header_and_row_count parse0 exE exE outE rfl

/-- C5: a missing value on either side scores 0.0 for the fuzzy string
comparison (never an error); the exact birthdate comparison is 1.0
precisely when both values are present and identical; and missing
values never abort the comparison step: it succeeds whenever the
compared columns exist and the text columns hold only
strings-or-missing (a present non-string value raises `TypeError`, a
distinct failure missingness never triggers). -/
theorem missing_values_score_zero (c c1 c2 : Cell) (df1 df2 : DataFrame)
    (links : List (Nat × Nat))
    (fn1 fn2 ln1 ln2 bd1 bd2 ct1 ct2 : List Cell)
    (h1 : df1.col "first_name" = some fn1)
    (h2 : df2.col "first_name" = some fn2)
    (h3 : df1.col "last_name" = some ln1)
    (h4 : df2.col "last_name" = some ln2)
    (h5 : df1.col "birthdate" = some bd1)
    (h6 : df2.col "birthdate" = some bd2)
    (h7 : df1.col "city" = some ct1)
    (h8 : df2.col "city" = some ct2)
    (hs1 : ∀ x ∈ fn1, isStrOrNa x = true)
    (hs2 : ∀ x ∈ fn2, isStrOrNa x = true)
    (hs3 : ∀ x ∈ ln1, isStrOrNa x = true)
    (hs4 : ∀ x ∈ ln2, isStrOrNa x = true)
    (hs5 : ∀ x ∈ ct1, isStrOrNa x = true)
    (hs6 : ∀ x ∈ ct2, isStrOrNa x = true) :
    simStringE .na c = .ok 0 ∧ simStringE c .na = .ok 0 ∧
    simExact c1 c2 = (if c1 ≠ .na ∧ c2 ≠ .na ∧ c1 = c2 then 1 else 0) ∧
    ∃ fs, computeFeatures df1 df2 links = .ok fs := by
  refine ⟨?_, ?_, ?_, ?_⟩
  · cases c <;> rfl
  · cases c <;> rfl
  · cases c1 <;> cases c2 <;> simp [simExact]
  · unfold computeFeatures
    rw [h1, h2, h3, h4, h5, h6, h7, h8]
    exact computeRows_ok_of_forall _ links
      (fun p _ => featuresOfPair_ok_of_strOrNa fn1 fn2 ln1 ln2 bd1 bd2
        ct1 ct2 p hs1 hs2 hs3 hs4 hs5 hs6)

/-- Witness for C5 at concrete cells and a concrete dataset whose text
columns hold only strings-or-missing. -/
theorem missing_values_score_zero_witness :
    simStringE .na (.str "x") = .ok 0 ∧ simStringE (.str "x") .na = .ok 0 ∧
    simExact .na (.date 0)
        = (if Cell.na ≠ Cell.na ∧ Cell.date 0 ≠ Cell.na
              ∧ Cell.na = Cell.date 0 then 1 else 0) ∧
    ∃ fs, computeFeatures exA exA [(0, 0)] = .ok fs :=
  missing_values_score_zero (.str "x") .na (.date 0) exA exA [(0, 0)]
    [.na] [.na] [.na] [.na] [.na] [.na] [.na] [.na]
    rfl rfl rfl rfl rfl rfl rfl rfl
    (by decide) (by decide) (by decide) (by decide) (by decide) (by decide)

/-- C6: after loading, every cell of the `birthdate` column is either a
canonical date or a missing value — an unparseable date is coerced to
missing, never an error. -/
theorem birthdate_coerced_date_or_missing (parse : Cell → Option Int)
    (df : DataFrame) (cells : List Cell)
    (h : (preprocess parse df).col "birthdate" = some cells) :
    ∀ c ∈ cells, isDateOrNa c = true := by
  unfold preprocess at h
  split at h
  next i heq =>
    simp only [DataFrame.col, DataFrame.colIdx] at h
    rw [heq] at h
    rw [Option.map_some', Option.some.injEq] at h
    subst h
    intro c hc
    obtain ⟨r0, hr0, rfl⟩ := List.mem_map.mp hc
    obtain ⟨r, hr, rfl⟩ := List.mem_map.mp hr0
    rw [getD_set_self]
    split
    · unfold toDatetimeCoerce
      cases parse (r.getD i .na) <;> rfl
    · rfl
  next heq =>
    simp only [DataFrame.col, DataFrame.colIdx] at h
    rw [heq] at h
    simp at h

/-- Witness for C6: a raw string birthdate is coerced to missing. -/
theorem birthdate_coerced_date_or_missing_witness :
    isDateOrNa Cell.na = true :=
  birthdate_coerced_date_or_missing parse0 exBad [Cell.na] rfl Cell.na
    (List.mem_singleton.mpr rfl)

/-- C7 counterexample: both values present (empty strings) and
identical, yet the fuzzy score is 0, not 1 — `jellyfish` returns 0.0
when either string is empty. -/
theorem identical_empty_strings_score_zero :
    simString (.str "") (.str "") = 0 ∧ simString (.str "") (.str "") ≠ 1 := by
  have h : simString (.str "") (.str "") = 0 := by
    show jaroWinkler "" "" = 0
    unfold jaroWinkler
    have hsim : jaroSim "".toList "".toList = 0 := by
      unfold jaroSim
      rw [if_pos (Or.inl (by decide))]
    rw [hsim]
    unfold winklerBoost
    rw [if_neg]
    rintro ⟨h1, -, -⟩
    norm_num at h1
  refine ⟨h, ?_⟩
  rw [h]
  norm_num

/-- C7 (amended): for a candidate pair whose two values of a compared
field are present and identical, the field scores exactly 1.0 — for the
string fields whenever the shared string is non-empty (two present empty
strings score 0.0), and for the exact birthdate indicator always. -/
theorem identical_present_values_score_one (s : String) (hs : s ≠ "")
    (c : Cell) (hc : c ≠ .na) :
    simString (.str s) (.str s) = 1 ∧ simExact c c = 1 := by
  constructor
  · exact jaroWinkler_self s hs
  · cases c
    · exact absurd rfl hc
    · simp [simExact]
    · simp [simExact]
    · simp [simExact]

/-- Witness for the amended C7 at concrete values. -/
theorem identical_present_values_score_one_witness :
    simString (.str "Jon") (.str "Jon") = 1 ∧
    simExact (.date 7305) (.date 7305) = 1 :=
  identical_present_values_score_one "Jon" (by decide) (.date 7305)
    (by decide)

/-- C8: a zero-row dataset on either side is not an error — the run
completes with zero candidate pairs and two outputs that carry the usual
header and no data rows. -/
theorem empty_dataset_yields_empty_outputs (parse : Cell → Option Int)
    (df1 df2 : DataFrame)
    (h1 : "first_name" ∈ df1.cols) (h2 : "first_name" ∈ df2.cols)
    (h3 : "last_name" ∈ df1.cols) (h4 : "last_name" ∈ df2.cols)
    (h5 : "birthdate" ∈ df1.cols) (h6 : "birthdate" ∈ df2.cols)
    (h7 : "city" ∈ df1.cols) (h8 : "city" ∈ df2.cols)
    (h0 : df1.rows = [] ∨ df2.rows = []) :
    fullIndex (preprocess parse df1).rows.length
        (preprocess parse df2).rows.length = [] ∧
    ∃ out, pipeline parse df1 df2 = .ok out ∧
      out.allPairs.rows = [] ∧ out.matched.rows = [] ∧
      out.allPairs.header
        = mergedHeader (preprocess parse df1) (preprocess parse df2) := by
  have hlinks : fullIndex (preprocess parse df1).rows.length
      (preprocess parse df2).rows.length = [] := by
    apply List.eq_nil_of_length_eq_zero
    rw [fullIndex_length, preprocess_rows_length, preprocess_rows_length]
    rcases h0 with h | h <;> rw [h] <;> simp
  refine ⟨hlinks, ?_⟩
  have m1 : "first_name" ∈ (preprocess parse df1).cols := by
    rw [preprocess_cols]; exact h1
  have m2 : "first_name" ∈ (preprocess parse df2).cols := by
    rw [preprocess_cols]; exact h2
  have m3 : "last_name" ∈ (preprocess parse df1).cols := by
    rw [preprocess_cols]; exact h3
  have m4 : "last_name" ∈ (preprocess parse df2).cols := by
    rw [preprocess_cols]; exact h4
  have m5 : "birthdate" ∈ (preprocess parse df1).cols := by
    rw [preprocess_cols]; exact h5
  have m6 : "birthdate" ∈ (preprocess parse df2).cols := by
    rw [preprocess_cols]; exact h6
  have m7 : "city" ∈ (preprocess parse df1).cols := by
    rw [preprocess_cols]; exact h7
  have m8 : "city" ∈ (preprocess parse df2).cols := by
    rw [preprocess_cols]; exact h8
  obtain ⟨l1, e1⟩ := Option.isSome_iff_exists.mp (col_isSome_of_mem _ _ m1)
  obtain ⟨l2, e2⟩ := Option.isSome_iff_exists.mp (col_isSome_of_mem _ _ m2)
  obtain ⟨l3, e3⟩ := Option.isSome_iff_exists.mp (col_isSome_of_mem _ _ m3)
  obtain ⟨l4, e4⟩ := Option.isSome_iff_exists.mp (col_isSome_of_mem _ _ m4)
  obtain ⟨l5, e5⟩ := Option.isSome_iff_exists.mp (col_isSome_of_mem _ _ m5)
  obtain ⟨l6, e6⟩ := Option.isSome_iff_exists.mp (col_isSome_of_mem _ _ m6)
  obtain ⟨l7, e7⟩ := Option.isSome_iff_exists.mp (col_isSome_of_mem _ _ m7)
  obtain ⟨l8, e8⟩ := Option.isSome_iff_exists.mp (col_isSome_of_mem _ _ m8)
  simp only [pipeline]
  rw [hlinks]
  unfold computeFeatures
  rw [e1, e2, e3, e4, e5, e6, e7, e8]
  exact ⟨_, rfl, rfl, rfl, rfl⟩

/-- Witness for C8 at a concrete zero-row run. -/
theorem empty_dataset_yields_empty_outputs_witness :
    fullIndex (preprocess parse0 exE).rows.length
        (preprocess parse0 exE).rows.length = [] ∧
    ∃ out, pipeline parse0 exE exE = .ok out ∧
      out.allPairs.rows = [] ∧ out.matched.rows = [] ∧
      out.allPairs.header
        = mergedHeader (preprocess parse0 exE) (preprocess parse0 exE) :=
  empty_dataset_yields_empty_outputs parse0 exE exE
    (by decide) (by decide) (by decide) (by decide)
    (by decide) (by decide) (by decide) (by decide) (Or.inl rfl)

/-- C9: the pipeline is a pure function of its inputs — equal inputs
give equal outputs — and the rows of the "all pairs" output are exactly
the candidate pairs, in the candidate pair generator's order. -/
theorem pipeline_deterministic_and_ordered
    (parse parse' : Cell → Option Int) (df1 df2 df1b df2b : DataFrame)
    (hp : parse = parse') (h1 : df1 = df1b) (h2 : df2 = df2b) :
    pipeline parse df1 df2 = pipeline parse' df1b df2b ∧
    ∀ out, pipeline parse df1 df2 = .ok out →
      ∃ fs, computeFeatures (preprocess parse df1) (preprocess parse df2)
          (fullIndex (preprocess parse df1).rows.length
            (preprocess parse df2).rows.length) = .ok fs ∧
        out.allPairs.rows
          = ((fullIndex (preprocess parse df1).rows.length
                (preprocess parse df2).rows.length).zip fs).map
              (fun q => mergedRow (preprocess parse df1)
                (preprocess parse df2) q.1 q.2) := by
  subst hp h1 h2
  refine ⟨rfl, ?_⟩
  intro out h
  simp only [pipeline] at h
  split at h
  · simp at h
  · rw [Except.ok.injEq] at h
    subst h
    rename_i fs heq
    exact ⟨fs, heq, rfl⟩

/-- Witness for C9 at a concrete run. -/
theorem pipeline_deterministic_and_ordered_witness :
    pipeline parse0 exE exE = pipeline parse0 exE exE ∧
    ∃ fs, computeFeatures (preprocess parse0 exE) (preprocess parse0 exE)
        (fullIndex (preprocess parse0 exE).rows.length
          (preprocess parse0 exE).rows.length) = .ok fs ∧
      outE.allPairs.rows
        = ((fullIndex (preprocess parse0 exE).rows.length
              (preprocess parse0 exE).rows.length).zip fs).map
            (fun q => mergedRow (preprocess parse0 exE)
              (preprocess parse0 exE) q.1 q.2) :=
  ⟨(pipeline_deterministic_and_ordered parse0 parse0 exE exE exE exE
      rfl rfl rfl).1,
   (pipeline_deterministic_and_ordered parse0 parse0 exE exE exE exE
      rfl rfl rfl).2 outE rfl⟩

/-- C10: when one of the four compared columns is absent from either
dataset the comparison step raises and the run aborts with an error and
no outputs; only the birthdate normalization tolerates an absent column
through its existence guard, silently skipping. -/
theorem missing_column_aborts_run (parse : Cell → Option Int)
    (df1 df2 df3 : DataFrame)
    (hmiss : "first_name" ∉ df1.cols ∨ "last_name" ∉ df1.cols ∨
      "birthdate" ∉ df1.cols ∨ "city" ∉ df1.cols ∨
      "first_name" ∉ df2.cols ∨ "last_name" ∉ df2.cols ∨
      "birthdate" ∉ df2.cols ∨ "city" ∉ df2.cols) :
    (∃ e, pipeline parse df1 df2 = .error e) ∧
    ("birthdate" ∉ df3.cols → preprocess parse df3 = df3) := by
  constructor
  · refine ⟨"KeyError", ?_⟩
    simp only [pipeline]
    rw [computeFeatures_error_of_missing]
    rcases hmiss with h | h | h | h | h | h | h | h
    · exact Or.inl (col_eq_none_of_not_mem _ _
        (by rw [preprocess_cols]; exact h))
    · exact Or.inr (Or.inl (col_eq_none_of_not_mem _ _
        (by rw [preprocess_cols]; exact h)))
    · exact Or.inr (Or.inr (Or.inl (col_eq_none_of_not_mem _ _
        (by rw [preprocess_cols]; exact h))))
    · exact Or.inr (Or.inr (Or.inr (Or.inl (col_eq_none_of_not_mem _ _
        (by rw [preprocess_cols]; exact h)))))
    · exact Or.inr (Or.inr (Or.inr (Or.inr (Or.inl
        (col_eq_none_of_not_mem _ _
          (by rw [preprocess_cols]; exact h))))))
    · exact Or.inr (Or.inr (Or.inr (Or.inr (Or.inr (Or.inl
        (col_eq_none_of_not_mem _ _
          (by rw [preprocess_cols]; exact h)))))))
    · exact Or.inr (Or.inr (Or.inr (Or.inr (Or.inr (Or.inr (Or.inl
        (col_eq_none_of_not_mem _ _
          (by rw [preprocess_cols]; exact h))))))))
    · exact Or.inr (Or.inr (Or.inr (Or.inr (Or.inr (Or.inr (Or.inr
        (col_eq_none_of_not_mem _ _
          (by rw [preprocess_cols]; exact h))))))))
  · intro hno
    unfold preprocess
    rw [show df3.cols.findIdx? (fun c => c == "birthdate") = none from
      List.findIdx?_eq_none_iff.mpr (fun x hx => by
        simp only [beq_eq_false_iff_ne]
        exact fun he => hno (he ▸ hx))]

/-- Witness for C10: a dataset lacking `city` aborts the run; the
birthdate guard skips a dataset lacking `birthdate`. -/
theorem missing_column_aborts_run_witness :
    (∃ e, pipeline parse0 exNoCity exE = .error e) ∧
    preprocess parse0 exNoBd = exNoBd :=
  ⟨(missing_column_aborts_run parse0 exNoCity exE exNoBd (by decide)).1,
   (missing_column_aborts_run parse0 exNoCity exE exNoBd (by decide)).2
     (by decide)⟩
